import Mathlib

/-
Verification development for the savorini (Happy Hour Finder) repository.

The repository ships shared TypeScript type declarations
(src/unnamed/part_000, src/unnamed/part_001, src/packages/types/src/api.ts),
API documentation (src/docs/API.md), and mock frontend screens
(src/apps/mobile/app/(tabs)/index.tsx). The backend services that the
spec describes (compliance evaluation, feed assembly, pagination
construction) are documented but their implementation is not in the
repository, so those operations are modelled from the spec; each such
definition carries a doc comment starting with `Modelled from the spec:`.
Type declarations and the mobile screen are embedded directly from the
source.
-/

namespace Savorini

/- Enums from src/unnamed/part_000 (domain types). The TypeScript member
`SHOW = "show"` is rendered as `show_` because `show` is a Lean keyword. -/

inductive VenueStatus
| pending
| active
| suspended
| inactive
deriving DecidableEq, Repr

inductive DayOfWeek
| monday
| tuesday
| wednesday
| thursday
| friday
| saturday
| sunday
deriving DecidableEq, Repr

inductive DealCategory
| food
| drink
| bundle
| event
deriving DecidableEq, Repr

inductive PriceDisplayMode
| hide
| show_
| redact
deriving DecidableEq, Repr

inductive Province
| ON | BC | AB | QC | NS | NB | MB | SK | PE | NL | YT | NT | NU
deriving DecidableEq, Repr

/- The `when` filter values of FeedFilters (src/packages/types/src/api.ts,
lines 35-44): "now" | "soon" | "today" | "tonight". -/
inductive TimeFilter
| now
| soon
| today
| tonight
deriving DecidableEq, Repr

/-- Deal entity, embedded from the `Deal` interface of
src/unnamed/part_000 lines 166-190 (the fields the claims use; `HH:MM`
time strings are represented as minutes since local midnight, optional
fields as `Option`, TypeScript `number` prices as `ℚ`). -/
structure Deal where
  id : String
  venueId : String
  title : String
  category : DealCategory
  originalPrice : Option ℚ
  dealPrice : Option ℚ
  priceDisplayMode : PriceDisplayMode
  activeDays : List DayOfWeek
  startTime : Option ℕ
  endTime : Option ℕ
  isActive : Bool
  isFeatured : Bool
  requiresAgeVerification : Bool
deriving DecidableEq, Repr

/-- Venue entity, embedded from the `Venue` interface of
src/unnamed/part_000 lines 124-147 (the fields the claims use). -/
structure Venue where
  id : String
  name : String
  address : String
  city : String
  province : Province
  status : VenueStatus
deriving DecidableEq, Repr

/-- Province regulatory rule, embedded from the `ProvinceRule` interface
of src/unnamed/part_000 lines 212-228 (the fields the claims use). -/
structure ProvinceRule where
  province : Province
  allowPriceDisplay : Bool
  brandLogoOk : Bool
  requireAgeVerification : Bool
  minAge : ℕ
  hideAlcoholBrands : Bool
  hideAlcoholPrices : Bool
  allowHappyHourMarketing : Bool
deriving DecidableEq, Repr

/- Compliance evaluation (spec section 4.1). -/

/-- Strictness rank of a price-display mode: `show` is the least
restrictive, `redact` hides the numeral but flags a deal, `hide`
suppresses price information entirely. -/
def strictness : PriceDisplayMode → ℕ
  | .show_ => 0
  | .redact => 1
  | .hide => 2

/-- The stricter of two price-display modes (ties go to the first). -/
def stricterOf (a b : PriceDisplayMode) : PriceDisplayMode :=
  if strictness b ≤ strictness a then a else b

/-- Modelled from the spec: the price-display mode a `ProvinceRule`
imposes on a deal of a given category (the ComplianceService
implementation is not in the repository). A province that forbids price
display (`allowPriceDisplay = false`) forces `hide`; a province that
hides alcohol prices forces `hide` for drink deals; otherwise the rule
imposes nothing beyond the deal's own mode (`show`). -/
def ruleImpliedMode (r : ProvinceRule) (c : DealCategory) : PriceDisplayMode :=
  if r.allowPriceDisplay = false then .hide
  else if r.hideAlcoholPrices ∧ c = .drink then .hide
  else .show_

/-- The display-safe projection of a deal (spec section 4.1 output):
prices nulled or redacted per rule and deal mode, alcohol brand hidden
if the rule requires. -/
structure SafeDeal where
  dealId : String
  title : String
  appliedMode : PriceDisplayMode
  originalPrice : Option ℚ
  dealPrice : Option ℚ
  brandHidden : Bool
deriving DecidableEq, Repr

/-- Modelled from the spec: the compliance projection (spec section 4.1;
the ComplianceService implementation is not in the repository). Written
by direct case analysis on the rule and the deal's own mode — the
characterisation through `stricterOf` is proved, not assumed. -/
def complianceProject (d : Deal) (r : ProvinceRule) : SafeDeal :=
  let brandHidden := r.hideAlcoholBrands && decide (d.category = .drink)
  if r.allowPriceDisplay = false then
    { dealId := d.id, title := d.title, appliedMode := .hide,
      originalPrice := none, dealPrice := none, brandHidden := brandHidden }
  else if r.hideAlcoholPrices && decide (d.category = .drink) then
    { dealId := d.id, title := d.title, appliedMode := .hide,
      originalPrice := none, dealPrice := none, brandHidden := brandHidden }
  else
    match d.priceDisplayMode with
    | .show_ =>
      { dealId := d.id, title := d.title, appliedMode := .show_,
        originalPrice := d.originalPrice, dealPrice := d.dealPrice,
        brandHidden := brandHidden }
    | .redact =>
      { dealId := d.id, title := d.title, appliedMode := .redact,
        originalPrice := none, dealPrice := none, brandHidden := brandHidden }
    | .hide =>
      { dealId := d.id, title := d.title, appliedMode := .hide,
        originalPrice := none, dealPrice := none, brandHidden := brandHidden }

/-- C1: in a province whose rule has `allowPriceDisplay = false`, the
compliance projection nulls both price fields of every deal, whatever
the deal's own `priceDisplayMode`. -/
theorem c1_prices_null_when_display_forbidden (d : Deal) (r : ProvinceRule)
    (h : r.allowPriceDisplay = false) :
    (complianceProject d r).originalPrice = none ∧
    (complianceProject d r).dealPrice = none := by
  simp [complianceProject, h]

def sampleRuleNoPrices : ProvinceRule :=
  { province := .AB, allowPriceDisplay := false, brandLogoOk := true,
    requireAgeVerification := true, minAge := 18, hideAlcoholBrands := false,
    hideAlcoholPrices := false, allowHappyHourMarketing := true }

def sampleDealShow : Deal :=
  { id := "deal_123", venueId := "venue_456", title := "$5 Wings & $4 Beer",
    category := .food, originalPrice := some 13, dealPrice := some 5,
    priceDisplayMode := .show_, activeDays := [.monday, .friday],
    startTime := some (15 * 60), endTime := some (18 * 60),
    isActive := true, isFeatured := true, requiresAgeVerification := false }

/-- Witness for C1 at a concrete rule and deal. -/
theorem c1_prices_null_when_display_forbidden_witness :
    sampleRuleNoPrices.allowPriceDisplay = false ∧
    (complianceProject sampleDealShow sampleRuleNoPrices).originalPrice = none ∧
    (complianceProject sampleDealShow sampleRuleNoPrices).dealPrice = none :=
  ⟨by decide, c1_prices_null_when_display_forbidden sampleDealShow sampleRuleNoPrices (by decide)⟩

/-- C3: the mode applied by the compliance projection is exactly the
stricter of the deal's own `priceDisplayMode` and the mode implied by
the venue's province rule; in particular the province rule only ever
restricts (raises strictness), never relaxes, the deal's own setting. -/
theorem c3_effective_mode_is_stricter_of (d : Deal) (r : ProvinceRule) :
    (complianceProject d r).appliedMode
      = stricterOf (ruleImpliedMode r d.category) d.priceDisplayMode ∧
    strictness d.priceDisplayMode ≤ strictness (complianceProject d r).appliedMode := by
  rcases d with ⟨_, _, _, c, _, _, m, _, _, _, _, _, _⟩
  rcases r with ⟨_, apd, _, _, _, _, hap, _⟩
  cases apd <;> cases hap <;> cases c <;> cases m <;>
    simp [complianceProject, ruleImpliedMode, stricterOf, strictness]

/- Deal liveness (spec section 3 invariant). -/

/-- A local instant: day of week plus minutes since local midnight. -/
structure LocalInstant where
  day : DayOfWeek
  minutes : ℕ
deriving DecidableEq, Repr

/-- Whether a local instant falls in a deal's active-day/time window:
the day is one of `activeDays` and the minutes lie between `startTime`
and `endTime` (a missing bound is unconstrained). -/
def inWindow (d : Deal) (t : LocalInstant) : Bool :=
  d.activeDays.contains t.day &&
  (match d.startTime with
   | none => true
   | some s => decide (s ≤ t.minutes)) &&
  (match d.endTime with
   | none => true
   | some e => decide (t.minutes ≤ e))

/-- Modelled from the spec: deal liveness (the backend service that
evaluates it is not in the repository). Per the section 3 invariant a
deal is live exactly when its own `isActive` toggle is on, the current
local time falls within its active-day/time window, and its venue's
status is `active`. -/
def isLive (d : Deal) (v : Venue) (t : LocalInstant) : Bool :=
  d.isActive && inWindow d t && decide (v.status = .active)

/-- C2: a deal is live only if the current local time falls within its
active-day/time window and its venue's status is `active`; hence a deal
whose venue is pending, suspended or inactive is never live. -/
theorem c2_live_requires_window_and_active_venue (d : Deal) (v : Venue)
    (t : LocalInstant) (h : isLive d v t = true) :
    inWindow d t = true ∧ v.status = VenueStatus.active := by
  simp only [isLive, Bool.and_eq_true, decide_eq_true_eq] at h
  exact ⟨h.1.2, h.2⟩

def sampleVenueActive : Venue :=
  { id := "venue_456", name := "The Local Pub", address := "123 Main St",
    city := "Toronto", province := .ON, status := .active }

def sampleInstant : LocalInstant :=
  { day := .friday, minutes := 16 * 60 }

/-- Witness for C2 at a concrete deal, venue and instant. -/
theorem c2_live_requires_window_and_active_venue_witness :
    isLive sampleDealShow sampleVenueActive sampleInstant = true ∧
    (inWindow sampleDealShow sampleInstant = true ∧
      sampleVenueActive.status = VenueStatus.active) :=
  ⟨by decide, c2_live_requires_window_and_active_venue sampleDealShow
    sampleVenueActive sampleInstant (by decide)⟩

/- Feed assembly (spec section 4.2). -/

/-- Feed query parameters, embedded from the `FeedFilters` interface of
src/packages/types/src/api.ts lines 35-44 together with the documented
`page`/`per_page` query parameters of GET /v1/feed (src/docs/API.md).
The TypeScript field `when` keeps its name. -/
structure FeedQuery where
  lat : ℚ
  lng : ℚ
  radiusKm : ℚ
  when : TimeFilter
  page : ℕ
  perPage : ℕ
deriving DecidableEq, Repr

/-- Feed item, embedded from the `FeedItem` interface of
src/packages/types/src/api.ts lines 46-61 (the fields the claims use). -/
structure FeedItem where
  dealId : String
  venueId : String
  title : String
  category : DealCategory
  venueName : String
  venueAddress : String
  distanceKm : ℚ
  savingsAmount : Option ℚ
  isFeatured : Bool
deriving DecidableEq, Repr

/-- Modelled from the spec: whether a deal's day/time window matches the
requested time bucket (the feed service implementation is not in the
repository). Only the "now" bucket is pinned down by the spec — the
current instant falls inside the window; the other buckets are modelled
as day matches with the natural start/end constraint. -/
def matchesBucket (d : Deal) (f : TimeFilter) (t : LocalInstant) : Bool :=
  match f with
  | .now => inWindow d t
  | .soon =>
    d.activeDays.contains t.day &&
    (match d.startTime with
     | none => true
     | some s => decide (t.minutes ≤ s))
  | .today => d.activeDays.contains t.day
  | .tonight =>
    d.activeDays.contains t.day &&
    (match d.endTime with
     | none => true
     | some e => decide (18 * 60 ≤ e))

/-- Modelled from the spec: stage 1 of feed assembly — keep the venues
within the query radius; `dist` gives each venue's distance in km from
the query point (the haversine/PostGIS computation is not in the
repository, so the metric is a parameter). -/
def radiusStage (dist : Venue → ℚ) (radiusKm : ℚ) (venues : List Venue) : List Venue :=
  venues.filter (fun v => decide (dist v ≤ radiusKm))

/-- Modelled from the spec: stage 2 of feed assembly — join each
in-radius venue with its active deals whose day/time window matches the
requested bucket. -/
def joinStage (deals : List Deal) (venues : List Venue) (f : TimeFilter)
    (t : LocalInstant) : List (Venue × Deal) :=
  venues.flatMap (fun v =>
    (deals.filter (fun d =>
      decide (d.venueId = v.id) && d.isActive && matchesBucket d f t)).map
      (fun d => (v, d)))

/-- The feed ordering: by distance from the query point, then by the
featured flag (featured deals first at equal distance). -/
def feedLE (dist : Venue → ℚ) (a b : Venue × Deal) : Bool :=
  decide (dist a.1 < dist b.1) ||
  (decide (dist a.1 = dist b.1) && (a.2.isFeatured || !b.2.isFeatured))

/-- The feed ordering as a relation, for sorting. -/
def feedRel (dist : Venue → ℚ) (a b : Venue × Deal) : Prop :=
  feedLE dist a b = true

instance feedRel_decidable (dist : Venue → ℚ) : DecidableRel (feedRel dist) :=
  fun a b => inferInstanceAs (Decidable (feedLE dist a b = true))

instance feedRel_total (dist : Venue → ℚ) : IsTotal (Venue × Deal) (feedRel dist) := by
  constructor
  intro a b
  simp only [feedRel, feedLE, Bool.or_eq_true, Bool.and_eq_true, decide_eq_true_eq]
  rcases lt_trichotomy (dist a.1) (dist b.1) with h | h | h
  · exact Or.inl (Or.inl h)
  · cases hb : b.2.isFeatured
    · exact Or.inl (Or.inr ⟨h, Or.inr (by simp [hb])⟩)
    · exact Or.inr (Or.inr ⟨h.symm, Or.inl rfl⟩)
  · exact Or.inr (Or.inl h)

instance feedRel_trans (dist : Venue → ℚ) : IsTrans (Venue × Deal) (feedRel dist) := by
  constructor
  intro a b c hab hbc
  simp only [feedRel, feedLE, Bool.or_eq_true, Bool.and_eq_true, decide_eq_true_eq] at *
  rcases hab with hab | ⟨hab, fab⟩ <;> rcases hbc with hbc | ⟨hbc, fbc⟩
  · exact Or.inl (hab.trans hbc)
  · exact Or.inl (hbc ▸ hab)
  · exact Or.inl (hab ▸ hbc)
  · refine Or.inr ⟨hab.trans hbc, ?_⟩
    cases ha : a.2.isFeatured <;> cases hb : b.2.isFeatured <;>
      cases hc : c.2.isFeatured <;> simp_all

/-- The feed ordering is monotone in distance. -/
theorem feedRel_dist_le {dist : Venue → ℚ} {a b : Venue × Deal}
    (h : feedRel dist a b) : dist a.1 ≤ dist b.1 := by
  simp only [feedRel, feedLE, Bool.or_eq_true, Bool.and_eq_true, decide_eq_true_eq] at h
  rcases h with h | ⟨h, _⟩
  · exact le_of_lt h
  · exact le_of_eq h

/-- Modelled from the spec: stage 4 of feed assembly — pagination by
page (1-based) and perPage. -/
def pageStage {α : Type} (page perPage : ℕ) (l : List α) : List α :=
  (l.drop ((page - 1) * perPage)).take perPage

/-- Savings shown for a display-safe deal: the price difference when
both projected prices are visible, nothing otherwise. -/
def safeSavings (s : SafeDeal) : Option ℚ :=
  match s.originalPrice, s.dealPrice with
  | some o, some p => some (o - p)
  | _, _ => none

/-- Builds the feed item for a venue/deal pair from the deal's
display-safe projection and the venue's distance from the query point. -/
def toFeedItem (dkm : ℚ) (v : Venue) (d : Deal) (s : SafeDeal) : FeedItem :=
  { dealId := d.id, venueId := v.id, title := d.title, category := d.category,
    venueName := v.name, venueAddress := v.address, distanceKm := dkm,
    savingsAmount := safeSavings s, isFeatured := d.isFeatured }

/-- Modelled from the spec: stage 5 of feed assembly — apply the
compliance projection of each deal under its venue's province rule;
`rules` looks up the read-only ProvinceRule reference data. -/
def projectStage (dist : Venue → ℚ) (rules : Province → ProvinceRule)
    (l : List (Venue × Deal)) : List FeedItem :=
  l.map (fun p => toFeedItem (dist p.1) p.1 p.2 (complianceProject p.2 (rules p.1.province)))

/-- Modelled from the spec: feed assembly (spec section 4.2; the
feed/search service implementation is not in the repository): filter
venues within radius, join active deals whose day/time window matches
the requested bucket, sort by distance then featured flag, paginate,
apply the compliance projection. -/
def assembleFeed (dist : Venue → ℚ) (rules : Province → ProvinceRule)
    (venues : List Venue) (deals : List Deal) (q : FeedQuery)
    (t : LocalInstant) : List FeedItem :=
  projectStage dist rules
    (pageStage q.page q.perPage
      ((joinStage deals (radiusStage dist q.radiusKm venues) q.when t).insertionSort
        (feedRel dist)))

/- Read-through cache over feed assembly (spec section 4.2: cache under
a key derived from rounded location plus time bucket). -/

/-- Cache key: the query location rounded to a grid cell plus the time
bucket. -/
structure CacheKey where
  latCell : ℤ
  lngCell : ℤ
  bucket : TimeFilter
deriving DecidableEq, Repr

/-- Rounds a coordinate to a grid cell (two decimal places). -/
def roundCoord (x : ℚ) : ℤ := ⌊x * 100⌋

/-- Modelled from the spec: the cache key of a feed query — rounded
location plus time bucket. -/
def cacheKeyOf (q : FeedQuery) : CacheKey :=
  { latCell := roundCoord q.lat, lngCell := roundCoord q.lng, bucket := q.when }

/-- The cache, as an association list from keys to cached feeds. -/
abbrev Cache : Type := List (CacheKey × List FeedItem)

/-- Looks a key up in the cache. -/
def cacheLookup (c : Cache) (k : CacheKey) : Option (List FeedItem) :=
  (List.find? (fun p => decide (p.1 = k)) c).map Prod.snd

/-- Modelled from the spec: read-through cached feed assembly — on a
hit return the cached feed unchanged, on a miss assemble the feed and
store it under the query's cache key. -/
def feedWithCache (dist : Venue → ℚ) (rules : Province → ProvinceRule)
    (venues : List Venue) (deals : List Deal) (q : FeedQuery)
    (t : LocalInstant) (c : Cache) : List FeedItem × Cache :=
  match cacheLookup c (cacheKeyOf q) with
  | some items => (items, c)
  | none =>
    let items := assembleFeed dist rules venues deals q t
    (items, (cacheKeyOf q, items) :: c)

/-- C4: in a feed query with time filter "now", every returned feed item
comes from a deal whose active-day/time window contains the query's
current local time — a deal outside its window never appears. -/
theorem c4_now_feed_only_deals_in_window (dist : Venue → ℚ)
    (rules : Province → ProvinceRule) (venues : List Venue)
    (deals : List Deal) (q : FeedQuery) (t : LocalInstant) (it : FeedItem)
    (hq : q.when = TimeFilter.now)
    (hit : it ∈ assembleFeed dist rules venues deals q t) :
    ∃ d, d ∈ deals ∧ d.id = it.dealId ∧ inWindow d t = true := by
  simp only [assembleFeed, projectStage, List.mem_map] at hit
  obtain ⟨p, hp, rfl⟩ := hit
  simp only [pageStage] at hp
  have hp' := List.mem_of_mem_drop (List.mem_of_mem_take hp)
  rw [List.mem_insertionSort] at hp'
  simp only [joinStage, List.mem_flatMap, List.mem_map, List.mem_filter] at hp'
  obtain ⟨v, _, d, ⟨hd, hcond⟩, rfl⟩ := hp'
  rw [hq] at hcond
  simp only [Bool.and_eq_true, decide_eq_true_eq, matchesBucket] at hcond
  exact ⟨d, hd, rfl, hcond.2⟩

def sampleRuleAllow : ProvinceRule :=
  { province := .ON, allowPriceDisplay := true, brandLogoOk := true,
    requireAgeVerification := true, minAge := 19, hideAlcoholBrands := false,
    hideAlcoholPrices := false, allowHappyHourMarketing := true }

def sampleDist : Venue → ℚ := fun _ => 1

def sampleRules : Province → ProvinceRule := fun _ => sampleRuleAllow

def sampleQueryNow : FeedQuery :=
  { lat := 43, lng := -79, radiusKm := 10, when := .now, page := 1, perPage := 20 }

def sampleDealNoPrices : Deal :=
  { id := "deal_789", venueId := "venue_456", title := "Trivia Night",
    category := .event, originalPrice := none, dealPrice := none,
    priceDisplayMode := .show_, activeDays := [.monday, .friday],
    startTime := some (15 * 60), endTime := some (18 * 60),
    isActive := true, isFeatured := false, requiresAgeVerification := false }

def sampleFeedItem : FeedItem :=
  toFeedItem 1 sampleVenueActive sampleDealNoPrices
    (complianceProject sampleDealNoPrices sampleRuleAllow)

/-- Witness for C4 at a concrete query, venue, deal and instant. -/
theorem c4_now_feed_only_deals_in_window_witness :
    sampleQueryNow.when = TimeFilter.now ∧
    sampleFeedItem ∈ assembleFeed sampleDist sampleRules [sampleVenueActive]
      [sampleDealNoPrices] sampleQueryNow sampleInstant ∧
    ∃ d, d ∈ [sampleDealNoPrices] ∧ d.id = sampleFeedItem.dealId ∧
      inWindow d sampleInstant = true :=
  ⟨rfl, by decide,
    c4_now_feed_only_deals_in_window sampleDist sampleRules [sampleVenueActive]
      [sampleDealNoPrices] sampleQueryNow sampleInstant sampleFeedItem rfl (by decide)⟩

/-- C5: the feed is sorted so that the distanceKm values of the returned
items are monotonically non-decreasing in list order. -/
theorem c5_feed_monotone_in_distance (dist : Venue → ℚ)
    (rules : Province → ProvinceRule) (venues : List Venue)
    (deals : List Deal) (q : FeedQuery) (t : LocalInstant) :
    List.Pairwise (fun a b : FeedItem => a.distanceKm ≤ b.distanceKm)
      (assembleFeed dist rules venues deals q t) := by
  have hs : List.Pairwise (feedRel dist)
      ((joinStage deals (radiusStage dist q.radiusKm venues) q.when t).insertionSort
        (feedRel dist)) :=
    List.sorted_insertionSort (feedRel dist) _
  have hsub :
      List.Sublist
        (pageStage q.page q.perPage
          ((joinStage deals (radiusStage dist q.radiusKm venues) q.when t).insertionSort
            (feedRel dist)))
        ((joinStage deals (radiusStage dist q.radiusKm venues) q.when t).insertionSort
          (feedRel dist)) :=
    (List.take_sublist _ _).trans (List.drop_sublist _ _)
  have hp := hs.sublist hsub
  unfold assembleFeed projectStage
  rw [List.pairwise_map]
  exact hp.imp (fun h => feedRel_dist_le h)

/-- C6: feed assembly is the staged pipeline the spec describes — radius
filter, join of active bucket-matching deals, sort by distance then
featured flag, pagination, compliance projection — and on a cache miss
the result is stored under the key derived from the rounded query
location plus the time bucket. -/
theorem c6_feed_pipeline_and_cache (dist : Venue → ℚ)
    (rules : Province → ProvinceRule) (venues : List Venue)
    (deals : List Deal) (q : FeedQuery) (t : LocalInstant) (c : Cache)
    (h : cacheLookup c (cacheKeyOf q) = none) :
    feedWithCache dist rules venues deals q t c =
      (projectStage dist rules
        (pageStage q.page q.perPage
          ((joinStage deals (radiusStage dist q.radiusKm venues) q.when t).insertionSort
            (feedRel dist))),
       (cacheKeyOf q, assembleFeed dist rules venues deals q t) :: c) ∧
    cacheLookup (feedWithCache dist rules venues deals q t c).2 (cacheKeyOf q) =
      some (assembleFeed dist rules venues deals q t) := by
  have h2 : feedWithCache dist rules venues deals q t c =
      (assembleFeed dist rules venues deals q t,
       (cacheKeyOf q, assembleFeed dist rules venues deals q t) :: c) := by
    simp [feedWithCache, h]
  constructor
  · rw [h2]
    simp [assembleFeed]
  · rw [h2]
    unfold cacheLookup
    rw [List.find?_cons_of_pos _ (by simp)]
    rfl

/-- Witness for C6 at a concrete query with an empty cache. -/
theorem c6_feed_pipeline_and_cache_witness :
    cacheLookup ([] : Cache) (cacheKeyOf sampleQueryNow) = none ∧
    (feedWithCache sampleDist sampleRules [sampleVenueActive] [sampleDealNoPrices]
        sampleQueryNow sampleInstant [] =
      (projectStage sampleDist sampleRules
        (pageStage sampleQueryNow.page sampleQueryNow.perPage
          ((joinStage [sampleDealNoPrices]
            (radiusStage sampleDist sampleQueryNow.radiusKm [sampleVenueActive])
            sampleQueryNow.when sampleInstant).insertionSort
              (feedRel sampleDist))),
       (cacheKeyOf sampleQueryNow,
        assembleFeed sampleDist sampleRules [sampleVenueActive] [sampleDealNoPrices]
          sampleQueryNow sampleInstant) :: []) ∧
    cacheLookup (feedWithCache sampleDist sampleRules [sampleVenueActive]
        [sampleDealNoPrices] sampleQueryNow sampleInstant []).2
        (cacheKeyOf sampleQueryNow) =
      some (assembleFeed sampleDist sampleRules [sampleVenueActive]
        [sampleDealNoPrices] sampleQueryNow sampleInstant)) :=
  ⟨rfl, c6_feed_pipeline_and_cache sampleDist sampleRules [sampleVenueActive]
    [sampleDealNoPrices] sampleQueryNow sampleInstant [] rfl⟩

/- Pagination (src/unnamed/part_001 and the pagination section of
src/docs/API.md). -/

/-- Pagination metadata, embedded from the `PaginationMeta` interface of
src/unnamed/part_001 lines 230-239 (the optional cursor fields are
omitted). -/
structure PaginationMeta where
  page : ℕ
  perPage : ℕ
  total : ℕ
  pages : ℕ
  hasNext : Bool
  hasPrev : Bool
deriving DecidableEq, Repr

/-- Modelled from the spec: construction of a paginated response's
metadata (the backend handler is not in the repository). `pages` is the
ceiling of total / perPage, matching the documented examples in
src/docs/API.md (total 45, per_page 20, pages 3; total 150, per_page
20, pages 8); `page` echoes the requested page, which the API serves
when it addresses an existing page (page 1 is always served). -/
def mkPaginationMeta (page perPage total : ℕ) : PaginationMeta :=
  { page := page, perPage := perPage, total := total,
    pages := (total + perPage - 1) / perPage,
    hasNext := decide (page < (total + perPage - 1) / perPage),
    hasPrev := decide (1 < page) }

/-- C7: for every paginated response — perPage at least 1 and the page
one the API serves — the metadata satisfies
page * perPage ≤ total + perPage. -/
theorem c7_page_perPage_bound (page perPage total : ℕ)
    (hper : 1 ≤ perPage)
    (hpage : page ≤ max (mkPaginationMeta page perPage total).pages 1) :
    (mkPaginationMeta page perPage total).page *
        (mkPaginationMeta page perPage total).perPage ≤
      (mkPaginationMeta page perPage total).total +
        (mkPaginationMeta page perPage total).perPage := by
  simp only [mkPaginationMeta] at *
  rcases le_max_iff.mp hpage with h | h
  · have h1 : (total + perPage - 1) / perPage * perPage ≤ total + perPage - 1 :=
      Nat.div_mul_le_self _ _
    have h2 : page * perPage ≤ (total + perPage - 1) / perPage * perPage :=
      Nat.mul_le_mul_right _ h
    omega
  · have h2 : page * perPage ≤ 1 * perPage := Nat.mul_le_mul_right _ h
    omega

/-- Witness for C7 at the documented feed example: page 2, per_page 20,
total 45. -/
theorem c7_page_perPage_bound_witness :
    1 ≤ 20 ∧ 2 ≤ max (mkPaginationMeta 2 20 45).pages 1 ∧
    (mkPaginationMeta 2 20 45).page * (mkPaginationMeta 2 20 45).perPage ≤
      (mkPaginationMeta 2 20 45).total + (mkPaginationMeta 2 20 45).perPage :=
  ⟨by decide, by decide, c7_page_perPage_bound 2 20 45 (by decide) (by decide)⟩

/- Response envelope shapes (src/unnamed/part_001 lines 224-255 and the
endpoint documentation in src/docs/API.md). -/

/-- Top-level fields of the success envelope `ApiResponse`, declared in
src/unnamed/part_001 lines 224-228. -/
def apiResponseFields : List String := ["data", "message", "meta"]

/-- Top-level field of `ErrorResponse` (src/unnamed/part_001 lines
253-255); its `error` value is an `ErrorDetail` with code, message and
details (lines 247-251). -/
def errorResponseFields : List String := ["error"]

/-- Top-level fields of `PaginatedResponse`, declared in
src/unnamed/part_001 lines 241-245. -/
def paginatedResponseFields : List String := ["data", "pagination", "message"]

/-- Top-level fields of the documented GET /v1/feed success response
(src/docs/API.md, Feed section). -/
def feedResponseFields : List String :=
  ["data", "pagination", "when", "location", "filters_applied"]

/-- The documented REST endpoints named by the spec, each paired with
the top-level shape of its documented success response
(src/docs/API.md). -/
def documentedEndpointShapes : List (String × List String) :=
  [("/v1/feed", feedResponseFields),
   ("/v1/venues", paginatedResponseFields),
   ("/v1/deals", paginatedResponseFields),
   ("/v1/auth/login", apiResponseFields),
   ("/v1/auth/register", apiResponseFields),
   ("/v1/auth/me", apiResponseFields),
   ("/v1/analytics/events", apiResponseFields)]

/-- C8 as stated is false on the repository: the documented GET
/v1/venues response is the `PaginatedResponse` shape, whose top-level
`pagination` field makes it neither the data/message/meta envelope nor
the error object. -/
theorem c8_counterexample :
    ("/v1/venues", paginatedResponseFields) ∈ documentedEndpointShapes ∧
    paginatedResponseFields ≠ apiResponseFields ∧
    paginatedResponseFields ≠ errorResponseFields := by
  refine ⟨?_, ?_, ?_⟩ <;> decide

/-- C8 amended: every documented endpoint's response is the success
envelope (data, message, meta), the error object (code, message,
details under `error`), the paginated envelope (data, pagination,
message), or — for the feed only — the paginated envelope extended
with when, location and filters_applied. -/
theorem c8_response_shapes (e : String × List String)
    (h : e ∈ documentedEndpointShapes) :
    e.2 = apiResponseFields ∨ e.2 = errorResponseFields ∨
    e.2 = paginatedResponseFields ∨ e.2 = feedResponseFields := by
  simp only [documentedEndpointShapes, List.mem_cons, List.not_mem_nil,
    or_false] at h
  rcases h with h | h | h | h | h | h | h <;> subst h <;> decide

/-- Witness for C8 (amended) at the feed endpoint. -/
theorem c8_response_shapes_witness :
    ("/v1/feed", feedResponseFields) ∈ documentedEndpointShapes ∧
    (feedResponseFields = apiResponseFields ∨
     feedResponseFields = errorResponseFields ∨
     feedResponseFields = paginatedResponseFields ∨
     feedResponseFields = feedResponseFields) :=
  ⟨by decide, c8_response_shapes ("/v1/feed", feedResponseFields) (by decide)⟩

/- Purity of compliance evaluation (spec section 4.1). -/

/-- Modelled from the spec: compliance evaluation as a state-passing
computation over an arbitrary ambient state (spec section 4.1 — "Pure
function, no side effects"; the ComplianceService implementation is not
in the repository). Its inputs are a Deal, the venue's province, and
the ProvinceRule for that province. -/
def evalCompliance {σ : Type} (world : σ) (d : Deal) (_prov : Province)
    (r : ProvinceRule) : SafeDeal × σ :=
  (complianceProject d r, world)

/-- C9: compliance evaluation is deterministic — two evaluations with
the same Deal, province and ProvinceRule produce identical display-safe
projections from any two ambient states — and it leaves the ambient
state unchanged. -/
theorem c9_compliance_pure {σ : Type} (w w' : σ) (d : Deal) (p : Province)
    (r : ProvinceRule) :
    (evalCompliance w d p r).1 = (evalCompliance w' d p r).1 ∧
    (evalCompliance w d p r).2 = w :=
  ⟨rfl, rfl⟩

/- The mobile HomeScreen (src/apps/mobile/app/(tabs)/index.tsx). -/

/-- A mock deal of the mobile HomeScreen, embedded from the `MOCK_DEALS`
array literal in src/apps/mobile/app/(tabs)/index.tsx lines 13-36. -/
structure MockDeal where
  id : String
  title : String
  venue : String
  address : String
  category : String
  savings : ℕ
  distance : String
  image : String
  featured : Bool
deriving DecidableEq, Repr

/-- The `MOCK_DEALS` constant of the mobile HomeScreen
(src/apps/mobile/app/(tabs)/index.tsx lines 13-36). -/
def MOCK_DEALS : List MockDeal :=
  [{ id := "1", title := "$5 Wings & $4 Beer", venue := "The Local Pub",
     address := "123 Main St", category := "food", savings := 40,
     distance := "0.5 km", image := "https://via.placeholder.com/300x200",
     featured := true },
   { id := "2", title := "Half Price Cocktails", venue := "Rooftop Lounge",
     address := "456 Queen St", category := "drink", savings := 50,
     distance := "1.2 km", image := "https://via.placeholder.com/300x200",
     featured := false }]

/-- The deals the Spotlight section renders, embedded from line 57 of
the screen: MOCK_DEALS filtered on the featured flag, in list order. -/
def spotlightDeals : List MockDeal := MOCK_DEALS.filter (fun d => d.featured)

/-- The deals the On Now section renders, embedded from line 78 of the
screen: every element of MOCK_DEALS, unfiltered. -/
def onNowDeals : List MockDeal := MOCK_DEALS

/-- C10: the Spotlight section renders exactly the featured elements of
MOCK_DEALS, in list order (a sublist containing all and only featured
deals), while the On Now section renders every element of MOCK_DEALS
regardless of any time window or featured flag. -/
theorem c10_homescreen_sections :
    List.Sublist spotlightDeals MOCK_DEALS ∧
    (∀ d ∈ spotlightDeals, d.featured = true) ∧
    (∀ d ∈ MOCK_DEALS, d.featured = true → d ∈ spotlightDeals) ∧
    onNowDeals = MOCK_DEALS := by
  refine ⟨?_, ?_, ?_, ?_⟩ <;> decide

end Savorini
